import Mathlib

/-!
Verification of the retrieval-augmented conversational agent of `unified-ops`
(`app/agents/rag_service.py` and `app/agents/llm_agent.py`) against its
natural-language specification.  Python strings are modeled as `List Char`,
floats as real numbers, and the external Gemini providers as oracles indexed
by call order (`none` models a raised exception).
-/

namespace UnifiedOps

/-- Python strings, modeled as lists of characters. -/
abbrev Str := List Char

/-- The ASCII whitespace characters stripped by Python `str.strip()`. -/
def pyIsSpace (c : Char) : Bool :=
  c = ' ' || c = '\t' || c = '\n' || c = '\r' || c = '\x0b' || c = '\x0c'

/-- Python `s.strip()`: drop whitespace from both ends. -/
def pyStrip (s : Str) : Str :=
  ((s.dropWhile pyIsSpace).reverse.dropWhile pyIsSpace).reverse

/-- `text.replace('\n', ' ')` from `RAGService._chunk_text`. -/
def collapseNewlines (s : Str) : Str :=
  s.map (fun c => if c = '\n' then ' ' else c)

/-- Python `text.split('. ')`: split on the two-character separator,
leftmost occurrence first, non-overlapping. -/
def splitDotSpace : Str → List Str
  | [] => [[]]
  | '.' :: ' ' :: rest => [] :: splitDotSpace rest
  | c :: rest =>
    match splitDotSpace rest with
    | [] => [[c]]
    | p :: ps => (c :: p) :: ps

/-- The greedy accumulator loop of `RAGService._chunk_text` (lines 97-111):
each sentence is stripped, empty sentences are skipped, the accumulator is
flushed when appending would exceed `chunkSize` and the accumulator is
non-empty, and each kept sentence is appended together with `". "`. -/
def chunkLoop (chunkSize : Nat) : List Str → Str → List Str
  | [], current => if current = [] then [] else [pyStrip current]
  | s :: rest, current =>
    if pyStrip s = [] then chunkLoop chunkSize rest current
    else if chunkSize < current.length + (pyStrip s).length ∧ current ≠ [] then
      pyStrip current :: chunkLoop chunkSize rest (pyStrip s ++ ['.', ' '])
    else
      chunkLoop chunkSize rest (current ++ pyStrip s ++ ['.', ' '])

/-- `RAGService._chunk_text(text, chunk_size)`. -/
def chunkText (text : Str) (chunkSize : Nat) : List Str :=
  if text = [] then []
  else chunkLoop chunkSize (splitDotSpace (collapseNewlines text)) []

/-- The stripped, non-empty sentences the chunker works over. -/
def sentencesOf (text : Str) : List Str :=
  ((splitDotSpace (collapseNewlines text)).map pyStrip).filter (fun s => s ≠ [])

/-- Whitespace normalization: remove every whitespace character.  Two strings
differing only in whitespace are identified by `normWS`. -/
def normWS (s : Str) : Str := s.filter (fun c => !pyIsSpace c)

lemma normWS_append (a b : Str) : normWS (a ++ b) = normWS a ++ normWS b := by
  simp [normWS]

lemma normWS_dropWhile (s : Str) :
    normWS (s.dropWhile pyIsSpace) = normWS s := by
  induction s with
  | nil => rfl
  | cons c cs ih =>
    by_cases h : pyIsSpace c
    · rw [List.dropWhile_cons]
      simp only [h, if_true]
      rw [ih]
      simp [normWS, List.filter_cons, h]
    · rw [List.dropWhile_cons]
      simp [h]

lemma normWS_reverse (s : Str) : normWS s.reverse = (normWS s).reverse := by
  simp [normWS, List.filter_reverse]

lemma normWS_pyStrip (s : Str) : normWS (pyStrip s) = normWS s := by
  unfold pyStrip
  rw [normWS_reverse, normWS_dropWhile, normWS_reverse, List.reverse_reverse,
    normWS_dropWhile]

lemma pyStrip_length_le (s : Str) : (pyStrip s).length ≤ s.length := by
  unfold pyStrip
  calc ((s.dropWhile pyIsSpace).reverse.dropWhile pyIsSpace).reverse.length
      = ((s.dropWhile pyIsSpace).reverse.dropWhile pyIsSpace).length := by
        simp
    _ ≤ (s.dropWhile pyIsSpace).reverse.length :=
        (List.dropWhile_sublist _).length_le
    _ = (s.dropWhile pyIsSpace).length := by simp
    _ ≤ s.length := (List.dropWhile_sublist _).length_le

lemma pyStrip_append_space (u : Str) : pyStrip (u ++ [' ']) = pyStrip u := by
  unfold pyStrip
  rcases h : u.dropWhile pyIsSpace with _ | ⟨c, cs⟩
  · have h2 : (u ++ [' ']).dropWhile pyIsSpace = [' '].dropWhile pyIsSpace := by
      rw [List.dropWhile_append, h]
      simp
    rw [h2]
    simp [List.dropWhile_cons, pyIsSpace]
  · have h2 : (u ++ [' ']).dropWhile pyIsSpace = (c :: cs) ++ [' '] := by
      rw [List.dropWhile_append, h]
      simp
    rw [h2]
    simp [List.reverse_append, List.dropWhile_cons, pyIsSpace]

lemma normWS_nil : normWS [] = [] := rfl

lemma normWS_d : normWS ['.'] = ['.'] := rfl

lemma normWS_ds : normWS ['.', ' '] = ['.'] := rfl

lemma normWS_space : normWS [' '] = [] := rfl

lemma normWS_cons_dot (l : Str) : normWS ('.' :: l) = '.' :: normWS l := by
  simp [normWS, List.filter_cons, pyIsSpace]

/-- Size invariant of the chunking loop: if every stripped sentence fits in
`chunkSize` characters, every emitted chunk has at most `chunkSize + 1`
characters (the extra character is the restored period terminator). -/
lemma chunkLoop_bound (chunkSize : Nat) (ss : List Str) :
    ∀ current,
      (∀ s ∈ ss, (pyStrip s).length ≤ chunkSize) →
      (current = [] ∨ ∃ u, current = u ++ [' '] ∧ u.length ≤ chunkSize + 1) →
      ∀ c ∈ chunkLoop chunkSize ss current, c.length ≤ chunkSize + 1 := by
  induction ss with
  | nil =>
    intro current _ hcur c hc
    unfold chunkLoop at hc
    rcases hcur with rfl | ⟨u, rfl, hu⟩
    · simp at hc
    · rw [if_neg (by simp)] at hc
      rcases List.mem_singleton.mp hc with rfl
      rw [pyStrip_append_space]
      exact le_trans (pyStrip_length_le u) hu
  | cons s rest ih =>
    intro current hs hcur c hc
    have hs' : ∀ t ∈ rest, (pyStrip t).length ≤ chunkSize := fun t ht =>
      hs t (List.mem_cons_of_mem _ ht)
    have hsh : (pyStrip s).length ≤ chunkSize := hs s (List.mem_cons_self _ _)
    unfold chunkLoop at hc
    by_cases he : pyStrip s = []
    · rw [if_pos he] at hc
      exact ih current hs' hcur c hc
    · rw [if_neg he] at hc
      by_cases hcond : chunkSize < current.length + (pyStrip s).length ∧ current ≠ []
      · rw [if_pos hcond] at hc
        rcases List.mem_cons.mp hc with rfl | hc2
        · rcases hcur with rfl | ⟨u, rfl, hu⟩
          · exact absurd rfl hcond.2
          · rw [pyStrip_append_space]
            exact le_trans (pyStrip_length_le u) hu
        · refine ih _ hs' (Or.inr ⟨pyStrip s ++ ['.'], by simp, ?_⟩) c hc2
          simpa using Nat.succ_le_succ hsh
      · rw [if_neg hcond] at hc
        refine ih _ hs' (Or.inr ⟨current ++ pyStrip s ++ ['.'], by simp, ?_⟩) c hc
        rcases not_and_or.mp hcond with h1 | h2
        · have : current.length + (pyStrip s).length ≤ chunkSize := le_of_not_lt h1
          simpa [Nat.add_assoc] using Nat.succ_le_succ this
        · have : current = [] := not_not.mp h2
          subst this
          simpa using Nat.succ_le_succ hsh

/-- Concatenation invariant of the chunking loop, modulo whitespace removal:
the emitted chunks carry exactly the accumulator plus each remaining
stripped, non-empty sentence followed by a period. -/
lemma chunkLoop_concat (chunkSize : Nat) (ss : List Str) :
    ∀ current,
      normWS (chunkLoop chunkSize ss current).flatten =
        normWS current ++
          normWS ((((ss.map pyStrip).filter (fun s => s ≠ [])).map
            (fun s => s ++ ['.'])).flatten) := by
  induction ss with
  | nil =>
    intro current
    unfold chunkLoop
    by_cases h : current = []
    · subst h
      simp [normWS_nil]
    · rw [if_neg h]
      have h1 : ([pyStrip current] : List Str).flatten = pyStrip current := by simp
      rw [h1, normWS_pyStrip]
      simp [normWS_nil]
  | cons s rest ih =>
    intro current
    unfold chunkLoop
    by_cases he : pyStrip s = []
    · rw [if_pos he]
      rw [ih current]
      simp [List.filter_cons, he]
    · rw [if_neg he]
      by_cases hcond : chunkSize < current.length + (pyStrip s).length ∧ current ≠ []
      · rw [if_pos hcond]
        simp only [List.flatten_cons]
        rw [normWS_append, normWS_pyStrip, ih]
        simp [List.filter_cons, he, normWS_append, normWS_ds, normWS_d, normWS_cons_dot, normWS_space,
          List.append_assoc]
      · rw [if_neg hcond]
        rw [ih]
        simp [List.filter_cons, he, normWS_append, normWS_ds, normWS_d, normWS_cons_dot, normWS_space,
          List.append_assoc]

/-! ## RAG service state (`rag_service.py`)

Floats are modeled as real numbers.  The two external Gemini providers are
modeled as oracles indexed by call order; `none` models a call that raises.
The `self.vector_stores` dictionary is threaded explicitly through every
method as a value of type `Stores`. -/

/-- One entry of a vector store: the dictionary built at
`rag_service.py:63-71`, with its `metadata` fields inlined. -/
structure ChunkVec where
  id : Nat
  text : Str
  embedding : List ℝ
  chunk_index : Nat
  created_at : Str

/-- One workspace's vector store (`rag_service.py:74-78`). -/
structure VectorStore where
  vectors : List ChunkVec
  created_at : Str
  num_chunks : Nat

/-- The `workspace_id -> vector store` dictionary `RAGService.vector_stores`. -/
def Stores := Int → Option VectorStore

/-- The external Gemini providers, as oracles indexed by the order of the
calls a run makes; `none` models a call that raises an exception. -/
structure Providers where
  completion : Nat → Option Str
  embedding : Nat → Option (List ℝ)

/-- `RAGService.generate_embedding(text, api_key)`: any provider exception is
caught and yields `[]` (`rag_service.py:26-40`).  `n` is the index of this
provider call. -/
def generate_embedding (P : Providers) (n : Nat) (text apiKey : Str) : List ℝ :=
  (P.embedding n).getD []

/-- The embedding loop of `create_vector_store` (`rag_service.py:59-71`): one
embedding call per chunk in order; a chunk whose embedding comes back falsy is
dropped.  `n` is the index of the next provider call, `i` the enumerate
index. -/
def embedChunks (P : Providers) (apiKey now : Str) :
    Nat → Nat → List Str → List ChunkVec
  | _, _, [] => []
  | n, i, c :: cs =>
    match generate_embedding P n c apiKey with
    | [] => embedChunks P apiKey now (n + 1) (i + 1) cs
    | e => ⟨i, c, e, i, now⟩ :: embedChunks P apiKey now (n + 1) (i + 1) cs

/-- `RAGService.create_vector_store` (`rag_service.py:42-81`): chunk, embed
each chunk, store the surviving vectors as the workspace's store and return
their count.  `now` models `datetime.utcnow()`. -/
def create_vector_store (P : Providers) (n : Nat) (now : Str) (stores : Stores)
    (workspace_id : Int) (business_content apiKey : Str) (chunk_size : Nat) :
    Nat × Stores :=
  let chunks := chunkText business_content chunk_size
  let vectors := embedChunks P apiKey now n 0 chunks
  (vectors.length,
    fun w => if w = workspace_id then some ⟨vectors, now, vectors.length⟩
      else stores w)

/-- `RAGService.delete_store` (`rag_service.py:177-181`). -/
def delete_store (stores : Stores) (workspace_id : Int) : Stores :=
  fun w => if w = workspace_id then none else stores w

/-- `RAGService.update_store` (`rag_service.py:183-194`): delete then create
with the default `chunk_size=500`. -/
def update_store (P : Providers) (n : Nat) (now : Str) (stores : Stores)
    (workspace_id : Int) (business_content apiKey : Str) : Nat × Stores :=
  create_vector_store P n now (delete_store stores workspace_id) workspace_id
    business_content apiKey 500

/-- The elementwise product-sum of two aligned vectors. -/
def dotSum (v w : List ℝ) : ℝ := (List.zipWith (fun a b => a * b) v w).sum

/-- `np.dot` on 1-D vectors: `none` models the `ValueError` it raises when
the lengths differ ("shapes not aligned"). -/
def npDot (v w : List ℝ) : Option ℝ :=
  if v.length = w.length then some (dotSum v w) else none

/-- `np.linalg.norm` of a 1-D vector. -/
noncomputable def npNorm (v : List ℝ) : ℝ := Real.sqrt (dotSum v v)

/-- `RAGService._cosine_similarity` (`rag_service.py:154-163`): `np.dot`
runs before the zero-norm guard, so a length mismatch raises (`none`) even
when one norm is zero. -/
noncomputable def cosine_similarity (v1 v2 : List ℝ) : Option ℝ :=
  match npDot v1 v2 with
  | none => none
  | some d =>
    if npNorm v1 = 0 ∨ npNorm v2 = 0 then some 0
    else some (d / (npNorm v1 * npNorm v2))

/-- The value `_cosine_similarity` returns on aligned vectors. -/
noncomputable def cosValue (v1 v2 : List ℝ) : ℝ :=
  if npNorm v1 = 0 ∨ npNorm v2 = 0 then 0
  else dotSum v1 v2 / (npNorm v1 * npNorm v2)

/-- One element of the `similarities` list built in `search`
(`rag_service.py:143-147`), with `metadata` inlined. -/
structure RetrievalResult where
  text : Str
  similarity : ℝ
  chunk_index : Nat
  created_at : Str

/-- The sort order of `similarities.sort(key=lambda x: x['similarity'],
reverse=True)`: descending similarity; a stable sort under this relation
keeps tied elements in their original order, as Python's stable `list.sort`
does. -/
def simDesc (a b : RetrievalResult) : Prop := b.similarity ≤ a.similarity

noncomputable instance : DecidableRel simDesc := fun a b =>
  Real.decidableLE _ _

instance : IsTotal RetrievalResult simDesc :=
  ⟨fun a b => (le_total b.similarity a.similarity).imp id id⟩

instance : IsTrans RetrievalResult simDesc :=
  ⟨fun _ _ _ h1 h2 => le_trans h2 h1⟩

/-- The similarity record `search` builds for one stored vector once the
cosine similarity is computed (`rag_service.py:143-147`). -/
noncomputable def simRecord (qe : List ℝ) (v : ChunkVec) : RetrievalResult :=
  ⟨v.text, cosValue qe v.embedding, v.chunk_index, v.created_at⟩

/-- The similarity loop of `search` (`rag_service.py:140-147`): one
`_cosine_similarity` call per stored vector; the first length-mismatched
vector raises `ValueError` out of `np.dot` (`none`), aborting the loop. -/
noncomputable def simList (qe : List ℝ) : List ChunkVec →
    Option (List RetrievalResult)
  | [] => some []
  | v :: vs =>
    match cosine_similarity qe v.embedding with
    | none => none
    | some s =>
      match simList qe vs with
      | none => none
      | some rest => some (⟨v.text, s, v.chunk_index, v.created_at⟩ :: rest)

/-- `RAGService.search` (`rag_service.py:115-152`), threading the stores and
the provider-call index through.  The first component is `none` when the
similarity loop raises (the method has no try/except of its own).  Python's
stable `list.sort` is modeled by insertion sort, which is stable and sorts
by the same relation. -/
noncomputable def search (P : Providers) (n : Nat) (stores : Stores)
    (workspace_id : Int) (query apiKey : Str) (top_k : Nat) :
    Option (List RetrievalResult) × Stores × Nat :=
  match stores workspace_id with
  | none => (some [], stores, n)
  | some store =>
    match generate_embedding P n query apiKey with
    | [] => (some [], stores, n + 1)
    | qe =>
      match simList qe store.vectors with
      | none => (none, stores, n + 1)
      | some sims =>
        (some ((sims.insertionSort simDesc).take top_k), stores, n + 1)

/-- Spec §8 Scenario C fixture: an index whose three chunks have cosine
similarity 0.9, 0.3 and 0.95 against the query embedding `[1, 0]`
(e.g. `[9, √19]` has norm `√(81+19) = 10` and dot product 9 with `[1, 0]`,
so cosine similarity exactly 0.9). -/
noncomputable def scenarioStore : VectorStore :=
  ⟨[⟨0, ("a").data, [9, Real.sqrt 19], 0, []⟩,
    ⟨1, ("b").data, [3, Real.sqrt 91], 1, []⟩,
    ⟨2, ("c").data, [19, Real.sqrt 39], 2, []⟩], [], 3⟩

noncomputable def scenarioStores : Stores :=
  fun w => if w = 1 then some scenarioStore else none

/-- Providers for Scenario C: the query embedding call returns `[1, 0]`. -/
noncomputable def scenarioP : Providers :=
  ⟨fun _ => none, fun _ => some [(1 : ℝ), 0]⟩

/-- On aligned vectors `_cosine_similarity` returns `some` of the guarded
quotient `cosValue`. -/
lemma cosine_defined (v1 v2 : List ℝ) (h : v1.length = v2.length) :
    cosine_similarity v1 v2 = some (cosValue v1 v2) := by
  unfold cosine_similarity npDot cosValue
  rw [if_pos h]
  dsimp only
  by_cases hz : npNorm v1 = 0 ∨ npNorm v2 = 0
  · rw [if_pos hz, if_pos hz]
  · rw [if_neg hz, if_neg hz]

/-- On mismatched lengths `np.dot` raises before the zero-norm guard. -/
lemma cosine_mismatch (v1 v2 : List ℝ) (h : v1.length ≠ v2.length) :
    cosine_similarity v1 v2 = none := by
  unfold cosine_similarity npDot
  rw [if_neg h]

/-- Cosine similarity of the unit query `[1, 0]` against `[a, √b]` where
`a * a + b = c * c`. -/
lemma cosine_query_unit (a b c : ℝ) (hb : 0 ≤ b) (hc : 0 < c)
    (h : a * a + b = c * c) :
    cosine_similarity [1, 0] [a, Real.sqrt b] = some (a / c) := by
  have hdot : dotSum [1, 0] [a, Real.sqrt b] = a := by
    simp [dotSum]
  have hn1 : npNorm [1, 0] = 1 := by
    have h1 : dotSum [(1 : ℝ), 0] [1, 0] = 1 := by simp [dotSum]
    rw [npNorm, h1, Real.sqrt_one]
  have hn2 : npNorm [a, Real.sqrt b] = c := by
    have hd : dotSum [a, Real.sqrt b] [a, Real.sqrt b] = c * c := by
      have hbb : Real.sqrt b * Real.sqrt b = b := Real.mul_self_sqrt hb
      simp [dotSum, hbb]
      linarith [h]
    rw [npNorm, hd, Real.sqrt_mul_self (le_of_lt hc)]
  rw [cosine_defined _ _ (by rfl)]
  unfold cosValue
  rw [hn1, hn2, hdot, if_neg, one_mul]
  rintro (h1 | h2)
  · exact one_ne_zero h1
  · exact ne_of_gt hc h2

lemma dotSum_self_eq (v : List ℝ) :
    dotSum v v = (v.map (fun x => x * x)).sum := by
  unfold dotSum
  rw [List.zipWith_same]

lemma dotSum_self_nonneg (v : List ℝ) : 0 ≤ dotSum v v := by
  rw [dotSum_self_eq]
  apply List.sum_nonneg
  intro x hx
  rcases List.mem_map.mp hx with ⟨y, _, rfl⟩
  exact mul_self_nonneg y

lemma dotSum_self_pos (v : List ℝ) (h : ∃ x ∈ v, x ≠ 0) : 0 < dotSum v v := by
  induction v with
  | nil => simp at h
  | cons a t ih =>
    have hc : dotSum (a :: t) (a :: t) = a * a + dotSum t t := by
      simp [dotSum]
    rw [hc]
    rcases h with ⟨x, hx, hxne⟩
    rcases List.mem_cons.mp hx with rfl | hxt
    · exact add_pos_of_pos_of_nonneg (mul_self_pos.mpr hxne)
        (dotSum_self_nonneg t)
    · exact add_pos_of_nonneg_of_pos (mul_self_nonneg a) (ih ⟨x, hxt, hxne⟩)

lemma npNorm_eq_zero (v : List ℝ) : npNorm v = 0 ↔ dotSum v v = 0 := by
  unfold npNorm
  exact Real.sqrt_eq_zero (dotSum_self_nonneg v)

/-- C8 (counterexample to the claim as stated): `_cosine_similarity`
computes `np.dot` before the zero-norm guard, so on two vectors of different
lengths — the first of zero norm — it raises `ValueError` instead of
returning `0.0`. -/
theorem cosine_similarity_mismatch_counterexample :
    npNorm [(0 : ℝ)] = 0 ∧
    cosine_similarity [(0 : ℝ)] [(1 : ℝ), 2] = none := by
  constructor
  · rw [npNorm_eq_zero]
    simp [dotSum]
  · exact cosine_mismatch _ _ (by simp)

/-- C8 (amended): for every pair of equal-length vectors at least one of
which has zero norm, `_cosine_similarity` returns exactly `0.0` (no NaN and,
lengths being aligned, no error), and on any non-zero vector compared with
itself it returns exactly `1` (over the reals the "up to epsilon" bound is
exact). -/
theorem cosine_similarity_zero_norm_and_self (v w u : List ℝ)
    (hlen : v.length = w.length)
    (h : npNorm v = 0 ∨ npNorm w = 0) (hu : ∃ x ∈ u, x ≠ 0) :
    cosine_similarity v w = some 0 ∧ cosine_similarity u u = some 1 := by
  constructor
  · rw [cosine_defined v w hlen]
    unfold cosValue
    rw [if_pos h]
  · have hpos : 0 < dotSum u u := dotSum_self_pos u hu
    have hnorm : ¬ npNorm u = 0 := by
      rw [npNorm_eq_zero]
      exact ne_of_gt hpos
    rw [cosine_defined u u rfl]
    unfold cosValue
    rw [if_neg (by tauto)]
    unfold npNorm
    rw [Real.mul_self_sqrt (le_of_lt hpos)]
    rw [div_self (ne_of_gt hpos)]

theorem cosine_similarity_zero_norm_and_self_witness :
    ([(0 : ℝ)] : List ℝ).length = ([(1 : ℝ)] : List ℝ).length ∧
    (npNorm [(0 : ℝ)] = 0 ∨ npNorm [(1 : ℝ)] = 0) ∧
    (∃ x ∈ [(1 : ℝ)], x ≠ 0) ∧
    cosine_similarity [(0 : ℝ)] [(1 : ℝ)] = some 0 ∧
    cosine_similarity [(1 : ℝ)] [(1 : ℝ)] = some 1 := by
  have h1 : npNorm [(0 : ℝ)] = 0 := by
    rw [npNorm_eq_zero]
    simp [dotSum]
  have h2 : ∃ x ∈ [(1 : ℝ)], x ≠ 0 := ⟨1, by simp, one_ne_zero⟩
  exact ⟨rfl, Or.inl h1, h2,
    cosine_similarity_zero_norm_and_self [(0 : ℝ)] [(1 : ℝ)] [(1 : ℝ)] rfl
      (Or.inl h1) h2⟩

lemma simDesc_mk (t1 t2 : Str) (s1 s2 : ℝ) (i1 i2 : Nat) (c1 c2 : Str) :
    simDesc ⟨t1, s1, i1, c1⟩ ⟨t2, s2, i2, c2⟩ ↔ s2 ≤ s1 := Iff.rfl

/-- The similarity loop succeeds and produces exactly the per-chunk records
when every stored embedding has the query vector's dimensionality. -/
lemma simList_aligned (qe : List ℝ) :
    ∀ vs : List ChunkVec, (∀ c ∈ vs, c.embedding.length = qe.length) →
      simList qe vs = some (vs.map (simRecord qe)) := by
  intro vs
  induction vs with
  | nil => intro _; rfl
  | cons v vs ih =>
    intro hdim
    unfold simList
    rw [cosine_defined qe v.embedding (hdim v (List.mem_cons_self _ _)).symm]
    rw [ih (fun c hc => hdim c (List.mem_cons_of_mem _ hc))]
    rfl

/-- Evaluation of Scenario C: `search` with `top_k = 2` on the index with
similarities `[0.9, 0.3, 0.95]` returns the 0.95 chunk then the 0.9 chunk. -/
lemma scenario_search_eval :
    ((search scenarioP 0 scenarioStores 1 ("pricing").data [] 2).1).map
      (fun l => l.map (fun r => (r.text, r.similarity))) =
      some [(("c").data, (0.95 : ℝ)), (("a").data, (0.9 : ℝ))] := by
  have hc1 : cosine_similarity [(1 : ℝ), 0] [9, Real.sqrt 19] = some 0.9 := by
    rw [cosine_query_unit 9 19 10 (by norm_num) (by norm_num) (by norm_num)]
    norm_num
  have hc2 : cosine_similarity [(1 : ℝ), 0] [3, Real.sqrt 91] = some 0.3 := by
    rw [cosine_query_unit 3 91 10 (by norm_num) (by norm_num) (by norm_num)]
    norm_num
  have hc3 : cosine_similarity [(1 : ℝ), 0] [19, Real.sqrt 39] = some 0.95 := by
    rw [cosine_query_unit 19 39 20 (by norm_num) (by norm_num) (by norm_num)]
    norm_num
  have hsl : simList [(1 : ℝ), 0] scenarioStore.vectors =
      some [⟨("a").data, 0.9, 0, []⟩, ⟨("b").data, 0.3, 1, []⟩,
        ⟨("c").data, 0.95, 2, []⟩] := by
    simp only [scenarioStore, simList, hc1, hc2, hc3]
  simp only [search, scenarioStores, scenarioP, generate_embedding,
    Option.getD_some, if_pos, hsl]
  norm_num [List.insertionSort, List.orderedInsert, simDesc_mk]

/-- C5 (counterexample to the claim as stated): `create_vector_store`
performs no dimensionality check, so the service itself can build an index
whose embeddings have different lengths (all embedding calls succeeding);
against such an index a query whose embedding succeeds with `[1, 2]` makes
`np.dot` raise `ValueError` inside the similarity loop, so `search` raises
instead of returning a sorted sequence. -/
theorem search_mismatch_counterexample :
    (search
      ⟨fun _ => none,
        fun k => if k = 0 then some [(1 : ℝ)] else some [(1 : ℝ), (2 : ℝ)]⟩ 2
      (create_vector_store
        ⟨fun _ => none,
          fun k => if k = 0 then some [(1 : ℝ)] else some [(1 : ℝ), (2 : ℝ)]⟩
        0 [] (fun _ => none) 1 ("aaa. bbb").data [] 1).2
      1 ("q").data [] 2).1 = none := rfl

/-- C5 (amended): whenever an index exists for the workspace, the
query-embedding call succeeds with a non-empty vector, and every stored
embedding has the query vector's dimensionality (`np.dot` raises out of
`search` otherwise), `search` returns at most `top_k` results, namely the
`top_k`-prefix of the stable descending insertion sort of the per-chunk
similarity records; the result is sorted by non-increasing similarity and
ties keep the original chunk order; in particular, on the Scenario C index
with similarities `[0.9, 0.3, 0.95]` and `top_k = 2` it returns the 0.95
chunk then the 0.9 chunk. -/
theorem search_sorted_topk (P : Providers) (n : Nat) (stores : Stores)
    (workspace_id : Int) (query apiKey : Str) (top_k : Nat)
    (store : VectorStore) (qe : List ℝ)
    (hstore : stores workspace_id = some store)
    (hqe : P.embedding n = some qe) (hne : qe ≠ [])
    (hdim : ∀ c ∈ store.vectors, c.embedding.length = qe.length) :
    (search P n stores workspace_id query apiKey top_k).1 =
      some (((store.vectors.map (simRecord qe)).insertionSort simDesc).take
        top_k) ∧
    (((store.vectors.map (simRecord qe)).insertionSort simDesc).take
      top_k).length ≤ top_k ∧
    List.Sorted simDesc
      (((store.vectors.map (simRecord qe)).insertionSort simDesc).take
        top_k) ∧
    (∀ a b : RetrievalResult,
      [a, b].Sublist (store.vectors.map (simRecord qe)) → simDesc a b →
      [a, b].Sublist ((store.vectors.map (simRecord qe)).insertionSort
        simDesc)) ∧
    ((search scenarioP 0 scenarioStores 1 ("pricing").data [] 2).1).map
      (fun l => l.map (fun r => (r.text, r.similarity))) =
      some [(("c").data, (0.95 : ℝ)), (("a").data, (0.9 : ℝ))] := by
  have hsl : simList qe store.vectors =
      some (store.vectors.map (simRecord qe)) :=
    simList_aligned qe store.vectors hdim
  have hres : (search P n stores workspace_id query apiKey top_k).1 =
      some (((store.vectors.map (simRecord qe)).insertionSort simDesc).take
        top_k) := by
    cases qe with
    | nil => exact absurd rfl hne
    | cons a l =>
      simp only [search, hstore, generate_embedding, hqe, Option.getD_some,
        hsl]
  refine ⟨hres, ?_, ?_, ?_, scenario_search_eval⟩
  · rw [List.length_take]
    exact min_le_left _ _
  · exact List.Pairwise.sublist (List.take_sublist _ _)
      (List.sorted_insertionSort simDesc _)
  · intro a b hab hr
    exact List.pair_sublist_insertionSort hr hab

theorem search_sorted_topk_witness :
    scenarioStores 1 = some scenarioStore ∧
    scenarioP.embedding 0 = some [(1 : ℝ), 0] ∧
    ([(1 : ℝ), 0] : List ℝ) ≠ [] ∧
    (∀ c ∈ scenarioStore.vectors,
      c.embedding.length = ([(1 : ℝ), 0] : List ℝ).length) ∧
    (search scenarioP 0 scenarioStores 1 ("pricing").data [] 2).1 =
      some (((scenarioStore.vectors.map
        (simRecord [(1 : ℝ), 0])).insertionSort simDesc).take 2) := by
  have hdim : ∀ c ∈ scenarioStore.vectors,
      c.embedding.length = ([(1 : ℝ), 0] : List ℝ).length := by
    intro c hc
    simp only [scenarioStore, List.mem_cons, List.not_mem_nil, or_false] at hc
    rcases hc with rfl | rfl | rfl <;> rfl
  exact ⟨by simp [scenarioStores], rfl, by simp, hdim,
    (search_sorted_topk scenarioP 0 scenarioStores 1 ("pricing").data [] 2
      scenarioStore [(1 : ℝ), 0] (by simp [scenarioStores]) rfl (by simp)
      hdim).1⟩

/-- C6: `search` fails soft.  If no index exists for the workspace, or the
query-embedding provider call raises, the result is the empty sequence and
no exception escapes (both paths return `some []` before the similarity
loop, the only part of `search` that can raise). -/
theorem search_fail_soft (P : Providers) (n : Nat) (stores : Stores)
    (workspace_id : Int) (query apiKey : Str) (top_k : Nat)
    (h : stores workspace_id = none ∨ P.embedding n = none) :
    (search P n stores workspace_id query apiKey top_k).1 = some [] := by
  unfold search
  rcases h with h | h
  · rw [h]
  · cases hs : stores workspace_id with
    | none => rfl
    | some store =>
      simp only [generate_embedding, h, Option.getD_none]

theorem search_fail_soft_witness :
    ((fun _ => none : Stores) 7 = none ∨
      (⟨fun _ => none, fun _ => none⟩ : Providers).embedding 0 = none) ∧
    (search ⟨fun _ => none, fun _ => none⟩ 0 (fun _ => none) 7 [] [] 3).1 =
      some [] :=
  ⟨Or.inl rfl,
    search_fail_soft ⟨fun _ => none, fun _ => none⟩ 0 (fun _ => none) 7 [] [] 3
      (Or.inl rfl)⟩

/-- C10: `search` never mutates the stores map: the threaded dictionary it
returns is exactly the one it received, for every workspace, query, provider
behaviour and `top_k` (the source method contains no assignment to
`self.vector_stores`). -/
theorem search_preserves_stores (P : Providers) (n : Nat) (stores : Stores)
    (workspace_id : Int) (query apiKey : Str) (top_k : Nat) :
    (search P n stores workspace_id query apiKey top_k).2.1 = stores := by
  unfold search
  cases stores workspace_id with
  | none => rfl
  | some store =>
    cases generate_embedding P n query apiKey with
    | nil => rfl
    | cons a l =>
      show (match simList (a :: l) store.vectors with
        | none => (none, stores, n + 1)
        | some sims =>
          (some (List.take top_k (List.insertionSort simDesc sims)), stores,
            n + 1)).2.1 = stores
      cases simList (a :: l) store.vectors with
      | none => rfl
      | some sims => rfl

lemma embedChunks_spec (P : Providers) (apiKey now : Str) (n0 : Nat) :
    ∀ (cs : List Str) (i : Nat),
      embedChunks P apiKey now (n0 + i) i cs =
        ((cs.enumFrom i).filter
          (fun p => !((P.embedding (n0 + p.1)).getD []).isEmpty)).map
          (fun p => ⟨p.1, p.2, (P.embedding (n0 + p.1)).getD [], p.1, now⟩) := by
  intro cs
  induction cs with
  | nil => intro i; rfl
  | cons c cs ih =>
    intro i
    rw [List.enumFrom_cons]
    unfold embedChunks
    have hrec : embedChunks P apiKey now (n0 + i + 1) (i + 1) cs =
        ((cs.enumFrom (i + 1)).filter
          (fun p => !((P.embedding (n0 + p.1)).getD []).isEmpty)).map
          (fun p => ⟨p.1, p.2, (P.embedding (n0 + p.1)).getD [], p.1, now⟩) := by
      have := ih (i + 1)
      rwa [← Nat.add_assoc] at this
    cases he : generate_embedding P (n0 + i) c apiKey with
    | nil =>
      have hf : ((P.embedding (n0 + i)).getD []).isEmpty = true := by
        unfold generate_embedding at he
        rw [he]
        rfl
      rw [List.filter_cons_of_neg (by simp [hf])]
      exact hrec
    | cons a l =>
      unfold generate_embedding at he
      rw [List.filter_cons_of_pos (by simp [he])]
      rw [List.map_cons]
      exact congrArg₂ _ (by rw [he]) hrec

/-- C7: `create_vector_store` embeds each chunk with one provider call, drops
exactly the chunks whose call comes back falsy (no retry, no abort), replaces
the workspace's store with the surviving vectors, returns their count, and
leaves every other workspace's store untouched. -/
theorem create_vector_store_spec (P : Providers) (n : Nat) (now : Str)
    (stores : Stores) (workspace_id : Int) (content apiKey : Str)
    (chunk_size : Nat) :
    let r := create_vector_store P n now stores workspace_id content apiKey
      chunk_size
    let kept := ((chunkText content chunk_size).enumFrom 0).filter
      (fun p => !((P.embedding (n + p.1)).getD []).isEmpty)
    ∃ store : VectorStore,
      r.2 workspace_id = some store ∧
      store.vectors.map (fun c => (c.id, c.text, c.embedding)) =
        kept.map (fun p => (p.1, p.2, (P.embedding (n + p.1)).getD [])) ∧
      r.1 = kept.length ∧
      store.num_chunks = kept.length ∧
      ∀ w, w ≠ workspace_id → r.2 w = stores w := by
  intro r kept
  have hemb : embedChunks P apiKey now n 0 (chunkText content chunk_size) =
      kept.map (fun p => ⟨p.1, p.2, (P.embedding (n + p.1)).getD [], p.1, now⟩) := by
    have := embedChunks_spec P apiKey now n (chunkText content chunk_size) 0
    simpa using this
  refine ⟨⟨embedChunks P apiKey now n 0 (chunkText content chunk_size), now,
    (embedChunks P apiKey now n 0 (chunkText content chunk_size)).length⟩,
    ?_, ?_, ?_, ?_, ?_⟩
  · show (if workspace_id = workspace_id then _ else _) = _
    rw [if_pos rfl]
  · rw [hemb, List.map_map]
    rfl
  · show (embedChunks P apiKey now n 0 (chunkText content chunk_size)).length = _
    rw [hemb, List.length_map]
  · show (embedChunks P apiKey now n 0 (chunkText content chunk_size)).length = _
    rw [hemb, List.length_map]
  · intro w hw
    show (if w = workspace_id then _ else _) = _
    rw [if_neg hw]

lemma embedChunks_dims (P : Providers) (apiKey now : Str) (d : Nat)
    (hdim : ∀ k v, P.embedding k = some v → v.length = d) :
    ∀ (cs : List Str) (n i : Nat),
      ∀ c ∈ embedChunks P apiKey now n i cs, c.embedding.length = d := by
  intro cs
  induction cs with
  | nil => intro n i c hc; simp [embedChunks] at hc
  | cons s cs ih =>
    intro n i c hc
    unfold embedChunks at hc
    cases he : generate_embedding P n s apiKey with
    | nil =>
      rw [he] at hc
      exact ih _ _ c hc
    | cons a l =>
      rw [he] at hc
      rcases List.mem_cons.mp hc with rfl | hc2
      · have : P.embedding n = some (a :: l) := by
          unfold generate_embedding at he
          cases hv : P.embedding n with
          | none => rw [hv] at he; simp at he
          | some v => rw [hv] at he; simp at he; rw [he]
        exact hdim n (a :: l) this
      · exact ih _ _ c hc2

/-- C9 (amended): if every successful Embedding Provider call returns a
vector of one fixed dimensionality `d`, then every chunk stored in the index
built by `create_vector_store` (hence also by `update_store`, which calls it)
has an embedding of dimensionality `d`. -/
theorem index_embedding_dims_uniform (P : Providers) (n : Nat) (now : Str)
    (stores : Stores) (workspace_id : Int) (content apiKey : Str)
    (chunk_size : Nat) (d : Nat)
    (hdim : ∀ k v, P.embedding k = some v → v.length = d) :
    ∀ store, (create_vector_store P n now stores workspace_id content apiKey
        chunk_size).2 workspace_id = some store →
      ∀ c ∈ store.vectors, c.embedding.length = d := by
  intro store hstore c hc
  dsimp only [create_vector_store] at hstore
  rw [if_pos rfl] at hstore
  cases hstore
  exact embedChunks_dims P apiKey now d hdim _ n 0 c hc

theorem index_embedding_dims_uniform_witness :
    (∀ k v, (⟨fun _ => none, fun _ => some [(0 : ℝ)]⟩ : Providers).embedding k =
        some v → v.length = 1) ∧
    ∀ store, (create_vector_store ⟨fun _ => none, fun _ => some [(0 : ℝ)]⟩ 0 []
        (fun _ => none) 1 ("ab").data [] 500).2 1 = some store →
      ∀ c ∈ store.vectors, c.embedding.length = 1 := by
  have h : ∀ k v, (⟨fun _ => none, fun _ => some [(0 : ℝ)]⟩ :
      Providers).embedding k = some v → v.length = 1 := by
    intro k v hv
    cases hv
    rfl
  exact ⟨h, index_embedding_dims_uniform ⟨fun _ => none, fun _ => some [(0 : ℝ)]⟩
    0 [] (fun _ => none) 1 ("ab").data [] 500 1 h⟩

/-- C9 (counterexample to the claim as stated): with an Embedding Provider
whose calls all succeed but return a 1-dimensional vector for the first chunk
and a 2-dimensional vector for the second, the built index stores embeddings
of two different dimensionalities. -/
theorem index_embedding_dims_counterexample :
    ((create_vector_store
        ⟨fun _ => none,
          fun k => if k = 0 then some [(1 : ℝ)] else some [(1 : ℝ), (2 : ℝ)]⟩
        0 [] (fun _ => none) 1 ("aaa. bbb").data [] 1).2 1).map
      (fun store => store.vectors.map (fun c => c.embedding.length)) =
      some [1, 2] := by
  decide

/-! ## Python `str.format` (used by `process_message` at `llm_agent.py:295`)

`system_prompt.format(business_name=..., current_date=..., rag_context=...,
booking_link=...)` is called outside any try/except, so a failing format
raises to the caller of `process_message`.  The model covers simple named
replacement fields `\x7bname\x7d` together with the `\x7b\x7b` / `\x7d\x7d`
escapes — the only forms the repository's templates use; every other use of
a brace raises in Python (`KeyError`, `IndexError` or `ValueError`) and is
modeled as `none`. -/

/-- Scan to the first closing brace; return the field name and remainder. -/
def breakRBrace : Str → Option (Str × Str)
  | [] => none
  | c :: rest =>
    if c = '\x7d' then some ([], rest)
    else
      match breakRBrace rest with
      | none => none
      | some (f, r) => some (c :: f, r)

/-- Keyword-argument lookup of `str.format`. -/
def lookupKey (env : List (Str × Str)) (k : Str) : Option Str :=
  match env with
  | [] => none
  | (k', v) :: rest => if k' = k then some v else lookupKey rest k

/-- The recursion of `str.format`, structural in a fuel argument so that the
definition stays kernel-computable.  Every step consumes at least one input
character, so with fuel at least `length + 1` the fuel-exhausted case is
unreachable. -/
def pyFormatAux (env : List (Str × Str)) : Nat → Str → Option Str
  | 0, _ => none
  | _ + 1, [] => some []
  | fuel + 1, c :: rest =>
    if c = '\x7b' then
      match rest with
      | [] => none
      | c2 :: rest2 =>
        if c2 = '\x7b' then
          (pyFormatAux env fuel rest2).map (fun t => '\x7b' :: t)
        else
          match breakRBrace (c2 :: rest2) with
          | none => none
          | some (f, r) =>
            match lookupKey env f with
            | none => none
            | some v => (pyFormatAux env fuel r).map (fun t => v ++ t)
    else if c = '\x7d' then
      match rest with
      | [] => none
      | c2 :: rest2 =>
        if c2 = '\x7d' then (pyFormatAux env fuel rest2).map (fun t => '\x7d' :: t)
        else none
    else
      (pyFormatAux env fuel rest).map (fun t => c :: t)

/-- Python `template.format(**env)`; `none` models a raised exception
(`KeyError` for an unknown field, `ValueError` for a stray brace,
`IndexError` for an empty field). -/
def pyFormat (env : List (Str × Str)) (template : Str) : Option Str :=
  pyFormatAux env (template.length + 1) template

/-! ## Conversation orchestrator (`llm_agent.py`)

The LangGraph pipeline `CheckLimit -> (DecideRAG -> [Retrieve] -> Generate |
Terminal)`.  The Completion Provider is the oracle `Providers.completion`,
indexed by the order of provider calls; `none` models a raised exception
(including a failing `genai.Client` construction).  Prompt texts do not
influence any observable of the model — the oracle quantifies over every
possible reply — so prompt assembly is not reproduced here; every failure
point of the source that can raise outside a try/except block is modeled
explicitly. -/

/-- One entry of `conversation_history`. -/
structure Msg where
  content : Str
  is_from_customer : Bool

/-- `ConversationState` (`llm_agent.py:21-40`). -/
structure CState where
  workspace_id : Int
  conversation_id : Int
  customer_message : Str
  conversation_history : List Msg
  business_name : Str
  system_prompt : Str
  rag_content_summary : Str
  gemini_api_key : Str
  needs_rag : Bool
  rag_query : Str
  rag_results : List RetrievalResult
  final_response : Str
  messages_count : Int
  max_messages : Int

/-- The fixed limit-reached message built at `llm_agent.py:94-97`. -/
def limitMessage (max_messages : Int) (business_name : Str) : Str :=
  ("You\x27ve reached the maximum of ").data ++ (toString max_messages).data ++
    (" messages. Please book an appointment or contact ").data ++
    business_name ++ (" directly for further assistance!").data

/-- The fixed apology message built at `llm_agent.py:231-234`. -/
def apologyMessage (business_name : Str) : Str :=
  ("I apologize, I\x27m having trouble processing your message right now. " ++
    "Please try again or contact ").data ++ business_name ++
    (" directly!").data

/-- `ConversationAgent.check_message_limit` (`llm_agent.py:91-98`). -/
def check_message_limit (st : CState) : CState :=
  if st.max_messages ≤ st.messages_count then
    { st with final_response := limitMessage st.max_messages st.business_name }
  else st

/-- The routing keys returned by `route_after_limit_check`. -/
inductive LimitRoute
  | limit_reached
  | continue_

/-- `ConversationAgent.route_after_limit_check` (`llm_agent.py:240-244`). -/
def route_after_limit_check (st : CState) : LimitRoute :=
  if st.max_messages ≤ st.messages_count then LimitRoute.limit_reached
  else LimitRoute.continue_

/-- The routing keys returned by `route_after_rag_decision`. -/
inductive RagRoute
  | use_rag
  | no_rag

/-- `ConversationAgent.route_after_rag_decision` (`llm_agent.py:246-250`). -/
def route_after_rag_decision (st : CState) : RagRoute :=
  if st.needs_rag then RagRoute.use_rag else RagRoute.no_rag

/-- Python `str.upper()` (ASCII part, which decides the `"YES"` match). -/
def pyUpper (s : Str) : Str := s.map Char.toUpper

/-- `ConversationAgent.decide_rag_needed` (`llm_agent.py:100-132`): one
completion call; the reply is stripped, upper-cased and searched for the
substring `"YES"`; any exception yields `needs_rag = false`.  `n` is the
index of the next provider call. -/
def decide_rag_needed (P : Providers) (n : Nat) (st : CState) : CState × Nat :=
  match P.completion n with
  | none => ({ st with needs_rag := false }, n + 1)
  | some resp =>
    ({ st with needs_rag := decide (("YES").data <:+: pyUpper (pyStrip resp)) },
      n + 1)

/-- `ConversationAgent.retrieve_rag_context` (`llm_agent.py:134-173`): one
completion call to produce the search query, then `rag_service.search` with
`top_k = 3`; any exception — the completion call raising, or `search`
raising out of `np.dot` — is caught by the node's except block, which sets
`rag_results = []` (the `rag_query` assignment never ran in that case). -/
noncomputable def retrieve_rag_context (P : Providers) (n : Nat)
    (stores : Stores) (st : CState) : CState × Nat :=
  match P.completion n with
  | none => ({ st with rag_results := [] }, n + 1)
  | some q =>
    let r := search P (n + 1) stores st.workspace_id (pyStrip q)
      st.gemini_api_key 3
    match r.1 with
    | none => ({ st with rag_results := [] }, r.2.2)
    | some results =>
      ({ st with rag_results := results, rag_query := pyStrip q }, r.2.2)

/-- `ConversationAgent.generate_response` (`llm_agent.py:175-236`): one
completion call whose stripped reply becomes `final_response`; any exception
yields the fixed apology message naming the business. -/
def generate_response (P : Providers) (n : Nat) (st : CState) : CState × Nat :=
  match P.completion n with
  | none => ({ st with final_response := apologyMessage st.business_name },
      n + 1)
  | some resp => ({ st with final_response := pyStrip resp }, n + 1)

/-- The graph nodes, for execution traces. -/
inductive Node
  | checkLimit
  | decideRag
  | retrieveContext
  | generateResponse
deriving DecidableEq

/-- The compiled LangGraph workflow (`llm_agent.py:53-87`): entry at
`check_message_limit`, conditional edge to `END` or `decide_rag`, conditional
edge to `retrieve_context` or `generate_response`, then `END`.  Returns the
final state, the number of provider calls made, and the visited nodes. -/
noncomputable def runGraph (P : Providers) (stores : Stores) (st : CState) :
    CState × Nat × List Node :=
  let st1 := check_message_limit st
  match route_after_limit_check st1 with
  | LimitRoute.limit_reached => (st1, 0, [Node.checkLimit])
  | LimitRoute.continue_ =>
    let r2 := decide_rag_needed P 0 st1
    match route_after_rag_decision r2.1 with
    | RagRoute.use_rag =>
      let r3 := retrieve_rag_context P r2.2 stores r2.1
      let r4 := generate_response P r3.2 r3.1
      (r4.1, r4.2, [Node.checkLimit, Node.decideRag, Node.retrieveContext,
        Node.generateResponse])
    | RagRoute.no_rag =>
      let r4 := generate_response P r2.2 r2.1
      (r4.1, r4.2, [Node.checkLimit, Node.decideRag, Node.generateResponse])

/-- Python `s.rstrip('/')` used on `settings.FRONTEND_URL`. -/
def pyRstripSlash (s : Str) : Str :=
  (s.reverse.dropWhile (fun c => c = '/')).reverse

/-- The initial state dictionary built at `llm_agent.py:288-309`
(`system_prompt` already formatted; `max_messages = 14`). -/
def mkInitialState (workspace_id conversation_id : Int)
    (customer_message : Str) (conversation_history : List Msg)
    (business_name sp rag_content_summary gemini_api_key : Str)
    (messages_count : Int) : CState :=
  { workspace_id := workspace_id
    conversation_id := conversation_id
    customer_message := customer_message
    conversation_history := conversation_history
    business_name := business_name
    system_prompt := sp
    rag_content_summary := rag_content_summary
    gemini_api_key := gemini_api_key
    needs_rag := false
    rag_query := []
    rag_results := []
    final_response := []
    messages_count := messages_count
    max_messages := 14 }

/-- `ConversationAgent.process_message` (`llm_agent.py:268-314`).  The
`system_prompt.format(...)` call at line 295 runs outside every try/except:
its failure propagates, modeled by the `none` result.  `frontend_url` models
`settings.FRONTEND_URL` and `today` the formatted `datetime.now()`.  On
success the returned value carries `final_response`, the number of provider
calls made, and the visited nodes. -/
noncomputable def process_message (P : Providers) (stores : Stores)
    (frontend_url today : Str) (workspace_id conversation_id : Int)
    (customer_message : Str) (conversation_history : List Msg)
    (business_name system_prompt rag_content_summary gemini_api_key : Str)
    (messages_count : Int) : Option (Str × Nat × List Node) :=
  let booking_link := pyRstripSlash frontend_url ++ ("/book/").data ++
    (toString workspace_id).data
  match pyFormat [(("business_name").data, business_name),
      (("current_date").data, today),
      (("rag_context").data, rag_content_summary),
      (("booking_link").data, booking_link)] system_prompt with
  | none => none
  | some sp =>
    let r := runGraph P stores (mkInitialState workspace_id conversation_id
      customer_message conversation_history business_name sp
      rag_content_summary gemini_api_key messages_count)
    some (r.1.final_response, r.2)

lemma runGraph_limit (P : Providers) (stores : Stores) (st : CState)
    (h : st.max_messages ≤ st.messages_count) :
    runGraph P stores st = (check_message_limit st, 0, [Node.checkLimit]) := by
  unfold runGraph
  have h2 : route_after_limit_check (check_message_limit st) =
      LimitRoute.limit_reached := by
    unfold route_after_limit_check check_message_limit
    rw [if_pos h]
    simp [h]
  simp only [h2]

lemma runGraph_continue_trace (P : Providers) (stores : Stores) (st : CState)
    (h : ¬ st.max_messages ≤ st.messages_count) :
    Node.decideRag ∈ (runGraph P stores st).2.2 := by
  unfold runGraph
  have h1 : check_message_limit st = st := by
    unfold check_message_limit
    rw [if_neg h]
  have h2 : route_after_limit_check (check_message_limit st) =
      LimitRoute.continue_ := by
    rw [h1]
    unfold route_after_limit_check
    rw [if_neg h]
  simp only [h2]
  cases route_after_rag_decision (decide_rag_needed P 0
    (check_message_limit st)).1 <;> simp

/-- C1: whenever `process_message` returns with `messages_count ≥ 14`, the
returned string is the fixed limit-reached message naming the business and
zero provider calls were made (only `CheckLimit` ran); with
`messages_count = 13` the orchestrator proceeds past `CheckLimit` into
`DecideRAG`. -/
theorem message_limit_policy (P : Providers) (stores : Stores)
    (frontend_url today : Str) (workspace_id conversation_id : Int)
    (customer_message : Str) (conversation_history : List Msg)
    (business_name system_prompt rag_content_summary gemini_api_key : Str)
    (messages_count : Int) (res : Str) (calls : Nat) (trace : List Node)
    (h : process_message P stores frontend_url today workspace_id
      conversation_id customer_message conversation_history business_name
      system_prompt rag_content_summary gemini_api_key messages_count =
      some (res, calls, trace)) :
    (14 ≤ messages_count →
      res = limitMessage 14 business_name ∧ calls = 0 ∧
        trace = [Node.checkLimit]) ∧
    (messages_count = 13 → Node.decideRag ∈ trace) := by
  dsimp only [process_message] at h
  cases hf : pyFormat [(("business_name").data, business_name),
      (("current_date").data, today),
      (("rag_context").data, rag_content_summary),
      (("booking_link").data, pyRstripSlash frontend_url ++ ("/book/").data ++
        (toString workspace_id).data)] system_prompt with
  | none =>
    rw [hf] at h
    simp at h
  | some sp =>
    rw [hf] at h
    have h' := Option.some.inj h
    constructor
    · intro h14
      have hlim : (mkInitialState workspace_id conversation_id
          customer_message conversation_history business_name sp
          rag_content_summary gemini_api_key messages_count).max_messages ≤
          (mkInitialState workspace_id conversation_id customer_message
          conversation_history business_name sp rag_content_summary
          gemini_api_key messages_count).messages_count := h14
      rw [runGraph_limit P stores _ hlim] at h'
      have hcml : check_message_limit (mkInitialState workspace_id
          conversation_id customer_message conversation_history business_name
          sp rag_content_summary gemini_api_key messages_count) =
          { mkInitialState workspace_id conversation_id customer_message
              conversation_history business_name sp rag_content_summary
              gemini_api_key messages_count with
            final_response := limitMessage 14 business_name } := by
        unfold check_message_limit
        rw [if_pos hlim]
        rfl
      rw [hcml] at h'
      dsimp only at h'
      simp only [Prod.mk.injEq] at h'
      exact ⟨h'.1.symm, h'.2.1.symm, h'.2.2.symm⟩
    · intro h13
      subst h13
      have hlt : ¬ (14 : Int) ≤ 13 := by norm_num
      have hmem := runGraph_continue_trace P stores (mkInitialState
        workspace_id conversation_id customer_message conversation_history
        business_name sp rag_content_summary gemini_api_key 13) hlt
      have h2 : (runGraph P stores (mkInitialState workspace_id
          conversation_id customer_message conversation_history business_name
          sp rag_content_summary gemini_api_key 13)).2 = (calls, trace) :=
        congrArg Prod.snd h'
      have h3 : (runGraph P stores (mkInitialState workspace_id
          conversation_id customer_message conversation_history business_name
          sp rag_content_summary gemini_api_key 13)).2.2 = trace :=
        congrArg Prod.snd h2
      rw [h3] at hmem
      exact hmem

theorem message_limit_policy_witness :
    process_message ⟨fun _ => none, fun _ => none⟩ (fun _ => none)
        ("http://x").data ("May 1, 2025").data 1 1 ("hi").data []
        ("Biz").data ("hello").data ("sum").data ("key").data 14 =
      some (limitMessage 14 ("Biz").data, 0, [Node.checkLimit]) ∧
    ((14 : Int) ≤ 14 →
      limitMessage 14 ("Biz").data = limitMessage 14 ("Biz").data ∧
      (0 : Nat) = 0 ∧ ([Node.checkLimit] : List Node) = [Node.checkLimit]) ∧
    ((14 : Int) = 13 → Node.decideRag ∈ ([Node.checkLimit] : List Node)) := by
  have hEq : process_message ⟨fun _ => none, fun _ => none⟩ (fun _ => none)
      ("http://x").data ("May 1, 2025").data 1 1 ("hi").data []
      ("Biz").data ("hello").data ("sum").data ("key").data 14 =
      some (limitMessage 14 ("Biz").data, 0, [Node.checkLimit]) := rfl
  exact ⟨hEq, message_limit_policy ⟨fun _ => none, fun _ => none⟩
    (fun _ => none) ("http://x").data ("May 1, 2025").data 1 1 ("hi").data []
    ("Biz").data ("hello").data ("sum").data ("key").data 14
    (limitMessage 14 ("Biz").data) 0 [Node.checkLimit] hEq⟩

/-- C2 (counterexample to the claim as stated): with
`system_prompt = "\x7bbad\x7d"`, the `system_prompt.format(...)` call at
`llm_agent.py:295` — made outside every try/except — raises `KeyError`,
which propagates to the caller instead of a string being returned. -/
theorem process_message_raises_counterexample :
    process_message ⟨fun _ => none, fun _ => none⟩ (fun _ => none)
      ("http://x").data ("May 1, 2025").data 1 1 ("hi").data [] ("Biz").data
      ("\x7bbad\x7d").data ("sum").data ("key").data 0 = none := rfl

/-- C2 (amended): for every input whose `system_prompt` formats successfully
against the four supplied keys, and for every behaviour of the Embedding and
Completion Providers including raising on every call, `process_message`
completes and returns a string. -/
theorem process_message_total (P : Providers) (stores : Stores)
    (frontend_url today : Str) (workspace_id conversation_id : Int)
    (customer_message : Str) (conversation_history : List Msg)
    (business_name system_prompt rag_content_summary gemini_api_key : Str)
    (messages_count : Int) (sp : Str)
    (hf : pyFormat [(("business_name").data, business_name),
        (("current_date").data, today),
        (("rag_context").data, rag_content_summary),
        (("booking_link").data, pyRstripSlash frontend_url ++
          ("/book/").data ++ (toString workspace_id).data)] system_prompt =
      some sp) :
    ∃ res calls trace, process_message P stores frontend_url today
      workspace_id conversation_id customer_message conversation_history
      business_name system_prompt rag_content_summary gemini_api_key
      messages_count = some (res, calls, trace) := by
  dsimp only [process_message]
  rw [hf]
  exact ⟨_, _, _, rfl⟩

theorem process_message_total_witness :
    pyFormat [(("business_name").data, ("Biz").data),
        (("current_date").data, ("May 1, 2025").data),
        (("rag_context").data, ("sum").data),
        (("booking_link").data, pyRstripSlash ("http://x").data ++
          ("/book/").data ++ (toString (1 : Int)).data)] ("hello").data =
      some ("hello").data ∧
    ∃ res calls trace, process_message ⟨fun _ => none, fun _ => none⟩
      (fun _ => none) ("http://x").data ("May 1, 2025").data 1 1
      ("hi").data [] ("Biz").data ("hello").data ("sum").data ("key").data 0 =
      some (res, calls, trace) :=
  ⟨by decide, process_message_total ⟨fun _ => none, fun _ => none⟩
    (fun _ => none) ("http://x").data ("May 1, 2025").data 1 1 ("hi").data []
    ("Biz").data ("hello").data ("sum").data ("key").data 0 ("hello").data
    (by decide)⟩

/-- C3 (amended): for every input text and every `max_chunk_size`, if no
single stripped sentence alone exceeds `max_chunk_size` characters, then no
chunk returned by the chunking engine exceeds `max_chunk_size + 1` characters
(the possible extra character is the period the chunker appends after each
sentence); in particular no chunk except possibly the last exceeds
`max_chunk_size + 1`. -/
theorem chunk_size_soft_bound (text : Str) (chunkSize : Nat)
    (hs : ∀ s ∈ splitDotSpace (collapseNewlines text),
      (pyStrip s).length ≤ chunkSize) :
    ∀ c ∈ chunkText text chunkSize, c.length ≤ chunkSize + 1 := by
  intro c hc
  unfold chunkText at hc
  by_cases h : text = []
  · rw [if_pos h] at hc
    simp at hc
  · rw [if_neg h] at hc
    exact chunkLoop_bound chunkSize _ [] hs (Or.inl rfl) c hc

theorem chunk_size_soft_bound_witness :
    (∀ s ∈ splitDotSpace (collapseNewlines ("ab. cd").data),
      (pyStrip s).length ≤ 5) ∧
    ∀ c ∈ chunkText ("ab. cd").data 5, c.length ≤ 5 + 1 :=
  ⟨by decide, chunk_size_soft_bound ("ab. cd").data 5 (by decide)⟩

/-- C3 (counterexample to the claim as stated): with `max_chunk_size = 5` and
input `"abcde. zzzzz"`, every stripped sentence has exactly 5 ≤ 5 characters,
yet the first chunk `"abcde."` — not the last — has 6 > 5 characters. -/
theorem chunk_size_bound_counterexample :
    (∀ s ∈ splitDotSpace (collapseNewlines ("abcde. zzzzz").data),
      (pyStrip s).length ≤ 5) ∧
    ∃ c ∈ (chunkText ("abcde. zzzzz").data 5).dropLast, 5 < c.length := by
  decide

/-- C4 (amended): for every input text and every `max_chunk_size`, the
concatenation of the chunks, with all whitespace removed, equals the
concatenation of the source's stripped non-empty sentences each followed by a
restored period terminator, with all whitespace removed. -/
theorem chunk_concat_reproduces_sentences (text : Str) (chunkSize : Nat) :
    normWS (chunkText text chunkSize).flatten =
      normWS ((sentencesOf text).map (fun s => s ++ ['.'])).flatten := by
  unfold chunkText sentencesOf
  by_cases h : text = []
  · subst h
    rw [if_pos rfl]
    decide
  · rw [if_neg h]
    simpa [normWS_nil] using
      chunkLoop_concat chunkSize (splitDotSpace (collapseNewlines text)) []

/-- C4 (counterexample to the claim as stated): the chunker appends a period
after every sentence, so for source `"hi"` the single chunk is `"hi."`, whose
concatenation differs from the source text even after removing every
whitespace character. -/
theorem chunk_concat_counterexample :
    chunkText ("hi").data 500 = [['h', 'i', '.']] ∧
    normWS (chunkText ("hi").data 500).flatten ≠ normWS ("hi").data := by
  decide

end UnifiedOps
